import Mathlib

/-!
# Verification of the rct protocol engine

Shallow embedding of the rct library (Go): the datagram builder (`build.go`),
the datagram parser (`parse.go`), the response cache (`cache.go`), the
connection query path (`connection.go`), the recoverable error kind
(`recoverable.go`) and the typed datagram accessors (`datagram.go`).

Bytes are modelled as `Nat` values below 256; 16-bit and 32-bit unsigned
quantities as `Nat` with explicit `% 2 ^ w` where the Go code truncates;
times and durations (`time.Time`, `time.Duration`) as `Int`; slices as
`List Nat`.  Stateful Go methods become explicit state-passing functions.
-/

set_option maxRecDepth 100000

namespace RCT

/-! ## Commands (`datagram.go`)

`Read Command = iota + 1`, …, `ReadPeriodically` = 8, and
`Extension = iota + 0x3c - 0x09` with `iota = 8` at that line, i.e. 0x3B. -/

abbrev Command := Nat

def Read : Command := 1

def Write : Command := 2

def LongWrite : Command := 3

def Reserved1 : Command := 4

def Response : Command := 5

def LongResponse : Command := 6

def Reserved2 : Command := 7

def ReadPeriodically : Command := 8

def Extension : Command := 0x3B

/-- The defined command set of the protocol. -/
def definedCommands : List Command :=
  [Read, Write, LongWrite, Reserved1, Response, LongResponse, Reserved2,
   ReadPeriodically, Extension]

/-- A RCT datagram (`datagram.go`): command, 32-bit identifier, payload. -/
structure Datagram where
  Cmd : Command
  Id : Nat
  Data : List Nat
deriving DecidableEq, Repr

/-! ## Checksum

Modelled from the spec: `crc.go` is not present under `src/` (only its
callers are).  Spec §4.1: a 16-bit CRC-CCITT-style accumulator with
polynomial 0x1021, MSB-first bit order, processing each of the 8 bits of a
byte by shifting the accumulator left and XOR-ing the polynomial when the
shifted-out bit disagrees with the data bit; `Reset` reinitializes to
0xFFFF and clears parity; `Get` (the spec's `finish`) folds in one zero
byte first when an odd number of updates have occurred.  The model is
validated below against the repository's fixed builder test vectors. -/

/-- Modelled from the spec: one MSB-first bit step of the 16-bit CRC with
polynomial 0x1021 (uint16 arithmetic, hence `% 2 ^ 16`). -/
def crcStepBit (c bit : Nat) : Nat :=
  let msb := c / 2 ^ 15 % 2
  let shifted := c * 2 % 2 ^ 16
  if msb ≠ bit then shifted ^^^ 0x1021 else shifted

/-- Modelled from the spec: fold one byte into the CRC accumulator,
processing its 8 bits MSB-first. -/
def crcUpdate16 (c b : Nat) : Nat :=
  let c := crcStepBit c (b / 2 ^ 7 % 2)
  let c := crcStepBit c (b / 2 ^ 6 % 2)
  let c := crcStepBit c (b / 2 ^ 5 % 2)
  let c := crcStepBit c (b / 2 ^ 4 % 2)
  let c := crcStepBit c (b / 2 ^ 3 % 2)
  let c := crcStepBit c (b / 2 ^ 2 % 2)
  let c := crcStepBit c (b / 2 ^ 1 % 2)
  let c := crcStepBit c (b / 2 ^ 0 % 2)
  c

/-- Modelled from the spec: checksum state, accumulator plus parity flag. -/
structure CRC where
  crc : Nat
  odd : Bool
deriving DecidableEq, Repr

/-- Modelled from the spec: `reset()` reinitializes to 0xFFFF, clears parity. -/
def CRC.Reset : CRC := ⟨0xFFFF, false⟩

/-- Modelled from the spec: `update(byte)` folds one byte in and flips parity. -/
def CRC.Update (c : CRC) (b : Nat) : CRC :=
  ⟨crcUpdate16 c.crc b, !c.odd⟩

/-- Modelled from the spec: `finish()`/`Get()` pads with one zero byte when
the update count since the last reset is odd, then emits the 16-bit value. -/
def CRC.Get (c : CRC) : Nat :=
  if c.odd then crcUpdate16 c.crc 0 else c.crc

/-! ## Builder (`build.go`) -/

/-- The escape encoding of one logical byte in the output stream
(`DatagramBuilder.WriteByte`): a byte equal to the start marker 0x2B or the
escape marker 0x2D is preceded by the escape marker. -/
def esc (b : Nat) : List Nat :=
  if b = 0x2b ∨ b = 0x2d then [0x2d, b] else [b]

/-- Builder state (`DatagramBuilder`): internal byte buffer plus CRC. -/
structure DatagramBuilder where
  buffer : List Nat
  crc : CRC
deriving DecidableEq, Repr

def NewDatagramBuilder : DatagramBuilder := ⟨[], CRC.Reset⟩

/-- `Reset` empties the internal buffer and resets the CRC. -/
def DatagramBuilder.Reset (_ : DatagramBuilder) : DatagramBuilder :=
  ⟨[], CRC.Reset⟩

/-- `WriteByte`: append the escaped byte to the buffer and fold the logical
byte (once, unescaped) into the CRC. -/
def DatagramBuilder.WriteByte (rdb : DatagramBuilder) (b : Nat) : DatagramBuilder :=
  ⟨rdb.buffer ++ esc b, rdb.crc.Update b⟩

/-- `WriteByteUnescapedNoCRC`: append without escaping or CRC update. -/
def DatagramBuilder.WriteByteUnescapedNoCRC (rdb : DatagramBuilder) (b : Nat) :
    DatagramBuilder :=
  ⟨rdb.buffer ++ [b], rdb.crc⟩

/-- `WriteCRC`: append `Get()` big-endian, unescaped (`bytes.Buffer.WriteByte`
directly; `byte(crc >> 8)` and `byte(crc & 0xff)`). -/
def DatagramBuilder.WriteCRC (rdb : DatagramBuilder) : DatagramBuilder :=
  ⟨rdb.buffer ++ [rdb.crc.Get / 2 ^ 8 % 2 ^ 8, rdb.crc.Get % 2 ^ 8], rdb.crc⟩

/-- `Build`: reset, then start byte (unescaped, no CRC), command, length
byte (`byte(len(dg.Data) + 4)`), the identifier big-endian (`byte(dg.Id >> 24)`
etc., uint32 shifts modelled as division), the payload, and finally the CRC. -/
def DatagramBuilder.Build (rdb : DatagramBuilder) (dg : Datagram) : DatagramBuilder :=
  let r := rdb.Reset
  let r := r.WriteByteUnescapedNoCRC 0x2b
  let r := r.WriteByte dg.Cmd
  let r := r.WriteByte ((dg.Data.length + 4) % 2 ^ 8)
  let r := r.WriteByte (dg.Id / 2 ^ 24 % 2 ^ 8)
  let r := r.WriteByte (dg.Id / 2 ^ 16 % 2 ^ 8)
  let r := r.WriteByte (dg.Id / 2 ^ 8 % 2 ^ 8)
  let r := r.WriteByte (dg.Id % 2 ^ 8)
  let r := dg.Data.foldl (fun acc d => acc.WriteByte d) r
  r.WriteCRC

/-- `Bytes` returns the datagram built so far. -/
def DatagramBuilder.Bytes (r : DatagramBuilder) : List Nat := r.buffer

/-! ## Parser (`parse.go`) -/

inductive ParserState
  | AwaitingStart
  | AwaitingCmd
  | AwaitingLen
  | AwaitingId0
  | AwaitingId1
  | AwaitingId2
  | AwaitingId3
  | AwaitingData
  | AwaitingCrc0
  | AwaitingCrc1
  | Done
deriving DecidableEq, Repr

/-- The local state of one `DatagramParser.Parse` call: the loop-carried
variables `length`, `dataLength`, `crc`, `crcReceived`, `escaped`, `state`
and the datagram under construction. -/
structure ParseLoopState where
  length : Nat
  dataLength : Nat
  crc : CRC
  crcReceived : Nat
  escaped : Bool
  state : ParserState
  dg : Datagram
deriving DecidableEq, Repr

/-- Initial loop state of `Parse`: Go zero values (`crc := CRC{}`,
`dg = &Datagram{}`), `state := AwaitingStart`. -/
def initLoopState : ParseLoopState :=
  ⟨0, 0, ⟨0, false⟩, 0, false, ParserState.AwaitingStart, ⟨0, 0, []⟩⟩

/-- The `switch state` body of the parse loop, reached when the byte is
dispatched to the current state (uint8 subtraction `length - 4` is modelled
as `(b + 2 ^ 8 - 4) % 2 ^ 8`, and `|=` as `Nat` bitwise or). -/
def parseDispatch (s : ParseLoopState) (b : Nat) : ParseLoopState :=
  match s.state with
  | .AwaitingStart =>
      if b = 0x2B then { s with state := .AwaitingCmd } else s
  | .AwaitingCmd =>
      { s with crc := CRC.Reset.Update b,
               dg := { s.dg with Cmd := b },
               state := if b ≤ ReadPeriodically ∨ b = Extension then
                 .AwaitingLen else .AwaitingStart }
  | .AwaitingLen =>
      { s with crc := s.crc.Update b,
               length := b,
               dataLength := (b + 2 ^ 8 - 4) % 2 ^ 8,
               state := .AwaitingId0 }
  | .AwaitingId0 =>
      { s with crc := s.crc.Update b,
               dg := { s.dg with Id := b * 2 ^ 24 },
               state := .AwaitingId1 }
  | .AwaitingId1 =>
      { s with crc := s.crc.Update b,
               dg := { s.dg with Id := s.dg.Id ||| b * 2 ^ 16 },
               state := .AwaitingId2 }
  | .AwaitingId2 =>
      { s with crc := s.crc.Update b,
               dg := { s.dg with Id := s.dg.Id ||| b * 2 ^ 8 },
               state := .AwaitingId3 }
  | .AwaitingId3 =>
      { s with crc := s.crc.Update b,
               dg := { s.dg with Id := s.dg.Id ||| b, Data := [] },
               state := if s.dataLength > 0 then .AwaitingData else .AwaitingCrc0 }
  | .AwaitingData =>
      { s with crc := s.crc.Update b,
               dg := { s.dg with Data := s.dg.Data ++ [b] },
               state := if (s.dg.Data ++ [b]).length ≥ s.dataLength then
                 .AwaitingCrc0 else .AwaitingData }
  | .AwaitingCrc0 =>
      { s with crcReceived := b * 2 ^ 8, state := .AwaitingCrc1 }
  | .AwaitingCrc1 =>
      { s with crcReceived := s.crcReceived ||| b,
               state := if s.crc.Get ≠ s.crcReceived ||| b then
                 .AwaitingStart else .Done }
  | .Done => s

/-- One iteration of the parse loop: the unconditional start-marker and
escape-marker checks (`continue`), then state dispatch. -/
def parseStep (s : ParseLoopState) (b : Nat) : ParseLoopState :=
  if s.escaped = false then
    if b = 0x2b then { s with state := .AwaitingCmd }
    else if b = 0x2d then { s with escaped := true }
    else parseDispatch s b
  else
    parseDispatch { s with escaped := false } b

/-- The parser struct (`DatagramParser`): buffer, length, position. -/
structure DatagramParser where
  buffer : List Nat
  length : Nat
  pos : Nat
deriving DecidableEq, Repr

/-- `Parse` iterates over `p.buffer[p.pos : p.length-p.pos]` and returns the
datagram when the final state is `Done`, an error otherwise (the error case
is modelled as `none`; Go also returns the partial datagram then). -/
def DatagramParser.Parse (p : DatagramParser) : Option Datagram :=
  let final := ((p.buffer.take (p.length - p.pos)).drop p.pos).foldl
    parseStep initLoopState
  if final.state = ParserState.Done then some final.dg else none

/-! ## Helper lemmas -/

/-- One CRC bit step always lands below `2 ^ 16`. -/
theorem crcStepBit_lt (c bit : Nat) : crcStepBit c bit < 2 ^ 16 := by
  show (if c / 2 ^ 15 % 2 ≠ bit then c * 2 % 2 ^ 16 ^^^ 0x1021
    else c * 2 % 2 ^ 16) < 2 ^ 16
  split
  · exact Nat.xor_lt_two_pow (Nat.mod_lt _ (by norm_num)) (by norm_num)
  · exact Nat.mod_lt _ (by norm_num)

/-- Folding a byte into the CRC lands below `2 ^ 16`. -/
theorem crcUpdate16_lt (c b : Nat) : crcUpdate16 c b < 2 ^ 16 := by
  unfold crcUpdate16
  exact crcStepBit_lt _ _

/-- The accumulator stays below `2 ^ 16` along any fold of updates that
starts from a state already below the bound. -/
theorem foldl_update_crc_lt (bs : List Nat) (c : CRC) (h : c.crc < 2 ^ 16) :
    (bs.foldl CRC.Update c).crc < 2 ^ 16 := by
  induction bs generalizing c with
  | nil => exact h
  | cons b bs ih => exact ih _ (crcUpdate16_lt _ _)

/-- `Get` of a below-bound accumulator is below `2 ^ 16`. -/
theorem CRC.Get_lt (c : CRC) (h : c.crc < 2 ^ 16) : c.Get < 2 ^ 16 := by
  unfold CRC.Get
  split
  · exact crcUpdate16_lt _ _
  · exact h

/-- Bitwise or of a shifted value with a value fitting in the shift is
addition. -/
theorem lor_mul_pow_add (x y k : Nat) (hy : y < 2 ^ k) :
    x * 2 ^ k ||| y = x * 2 ^ k + y := by
  rw [Nat.mul_comm]
  exact (Nat.mul_add_lt_is_or hy x).symm

/-- Reassembling the four big-endian bytes of a 32-bit value with shifts and
bitwise or (as `parse.go` does in states `AwaitingId0`–`AwaitingId3`) yields
the value back. -/
theorem id_roundtrip (i : Nat) (h : i < 2 ^ 32) :
    ((i / 2 ^ 24 % 2 ^ 8 * 2 ^ 24 ||| i / 2 ^ 16 % 2 ^ 8 * 2 ^ 16) |||
      i / 2 ^ 8 % 2 ^ 8 * 2 ^ 8) ||| i % 2 ^ 8 = i := by
  have e1 : i / 2 ^ 24 % 2 ^ 8 * 2 ^ 24 ||| i / 2 ^ 16 % 2 ^ 8 * 2 ^ 16 =
      i / 2 ^ 24 % 2 ^ 8 * 2 ^ 24 + i / 2 ^ 16 % 2 ^ 8 * 2 ^ 16 :=
    lor_mul_pow_add _ _ 24 (by
      have := Nat.mod_lt (i / 2 ^ 16) (show 0 < 2 ^ 8 by norm_num)
      omega)
  have f1 : i / 2 ^ 24 % 2 ^ 8 * 2 ^ 24 + i / 2 ^ 16 % 2 ^ 8 * 2 ^ 16 =
      (i / 2 ^ 24 % 2 ^ 8 * 2 ^ 8 + i / 2 ^ 16 % 2 ^ 8) * 2 ^ 16 := by ring
  have e2 : (i / 2 ^ 24 % 2 ^ 8 * 2 ^ 8 + i / 2 ^ 16 % 2 ^ 8) * 2 ^ 16 |||
      i / 2 ^ 8 % 2 ^ 8 * 2 ^ 8 =
      (i / 2 ^ 24 % 2 ^ 8 * 2 ^ 8 + i / 2 ^ 16 % 2 ^ 8) * 2 ^ 16 +
        i / 2 ^ 8 % 2 ^ 8 * 2 ^ 8 :=
    lor_mul_pow_add _ _ 16 (by
      have := Nat.mod_lt (i / 2 ^ 8) (show 0 < 2 ^ 8 by norm_num)
      omega)
  have f2 : (i / 2 ^ 24 % 2 ^ 8 * 2 ^ 8 + i / 2 ^ 16 % 2 ^ 8) * 2 ^ 16 +
      i / 2 ^ 8 % 2 ^ 8 * 2 ^ 8 =
      ((i / 2 ^ 24 % 2 ^ 8 * 2 ^ 8 + i / 2 ^ 16 % 2 ^ 8) * 2 ^ 8 +
        i / 2 ^ 8 % 2 ^ 8) * 2 ^ 8 := by ring
  have e3 : ((i / 2 ^ 24 % 2 ^ 8 * 2 ^ 8 + i / 2 ^ 16 % 2 ^ 8) * 2 ^ 8 +
      i / 2 ^ 8 % 2 ^ 8) * 2 ^ 8 ||| i % 2 ^ 8 =
      ((i / 2 ^ 24 % 2 ^ 8 * 2 ^ 8 + i / 2 ^ 16 % 2 ^ 8) * 2 ^ 8 +
        i / 2 ^ 8 % 2 ^ 8) * 2 ^ 8 + i % 2 ^ 8 :=
    lor_mul_pow_add _ _ 8 (Nat.mod_lt _ (by norm_num))
  rw [e1, f1, e2, f2, e3]
  omega

/-- The escaped encoding of a byte list, as emitted by repeated
`DatagramBuilder.WriteByte` calls. -/
def escAll : List Nat → List Nat
  | [] => []
  | b :: bs => esc b ++ escAll bs

/-- The logical (unescaped, un-checksummed) byte content of a frame for a
datagram: command, length byte, big-endian identifier, payload. -/
def logicalBytes (dg : Datagram) : List Nat :=
  dg.Cmd :: (dg.Data.length + 4) % 2 ^ 8 :: dg.Id / 2 ^ 24 % 2 ^ 8 ::
    dg.Id / 2 ^ 16 % 2 ^ 8 :: dg.Id / 2 ^ 8 % 2 ^ 8 :: dg.Id % 2 ^ 8 :: dg.Data

/-- The CRC accumulator after folding a byte list from a fresh reset. -/
def crcFold (bs : List Nat) : CRC := bs.foldl CRC.Update CRC.Reset

/-- The finished 16-bit checksum of a datagram's frame. -/
def frameCRC (dg : Datagram) : Nat := (crcFold (logicalBytes dg)).Get

theorem frameCRC_lt (dg : Datagram) : frameCRC dg < 2 ^ 16 :=
  CRC.Get_lt _ (foldl_update_crc_lt _ _ (by norm_num [CRC.Reset]))

/-- A fold of `WriteByte` appends the escaped bytes and folds the logical
bytes into the CRC. -/
theorem foldl_writeByte (data : List Nat) (r : DatagramBuilder) :
    data.foldl (fun acc d => acc.WriteByte d) r =
      ⟨r.buffer ++ escAll data, data.foldl CRC.Update r.crc⟩ := by
  induction data generalizing r with
  | nil => simp [escAll]
  | cons b bs ih =>
      simp only [List.foldl_cons, escAll]
      rw [ih]
      simp [DatagramBuilder.WriteByte, List.append_assoc]

/-- Characterization of `Build`: start marker, escaped logical bytes, then
the two unescaped big-endian CRC bytes; the CRC state is the fold of the
logical bytes. -/
theorem build_eq (rdb : DatagramBuilder) (dg : Datagram) :
    rdb.Build dg =
      ⟨0x2b :: (escAll (logicalBytes dg) ++
        [frameCRC dg / 2 ^ 8 % 2 ^ 8, frameCRC dg % 2 ^ 8]),
       crcFold (logicalBytes dg)⟩ := by
  simp only [DatagramBuilder.Build]
  rw [foldl_writeByte]
  simp only [DatagramBuilder.Reset, DatagramBuilder.WriteByteUnescapedNoCRC,
    DatagramBuilder.WriteByte, DatagramBuilder.WriteCRC, logicalBytes, escAll,
    crcFold, frameCRC, List.foldl_cons]
  simp [List.append_assoc]

/-- State dispatch never touches the escape flag. -/
theorem parseDispatch_escaped (s : ParseLoopState) (b : Nat) :
    (parseDispatch s b).escaped = s.escaped := by
  obtain ⟨len, dl, crc, crcr, e, st, dg⟩ := s
  cases st <;> first
  | rfl
  | (simp only [parseDispatch]; (try split) <;> rfl)

/-- Feeding the escaped encoding of one logical byte to the parse loop from
an unescaped state performs exactly one state dispatch of that byte. -/
theorem parseStep_esc (s : ParseLoopState) (b : Nat) (hs : s.escaped = false) :
    (esc b).foldl parseStep s = parseDispatch s b := by
  obtain ⟨len, dl, crc, crcr, e, st, dg⟩ := s
  subst hs
  by_cases hb : b = 0x2b ∨ b = 0x2d
  · have hesc : esc b = [0x2d, b] := by simp [esc, hb]
    rw [hesc]
    rcases hb with hb | hb <;> subst hb <;> rfl
  · push_neg at hb
    have hesc : esc b = [b] := by simp [esc, hb.1, hb.2]
    rw [hesc]
    simp [parseStep, hb.1, hb.2]

/-- Feeding the escaped encoding of a logical byte list from an unescaped
state folds the state dispatch over the logical bytes. -/
theorem parse_escAll (bs : List Nat) (s : ParseLoopState)
    (hs : s.escaped = false) :
    (escAll bs).foldl parseStep s = bs.foldl parseDispatch s := by
  induction bs generalizing s with
  | nil => rfl
  | cons b bs ih =>
      show (esc b ++ escAll bs).foldl parseStep s = _
      rw [List.foldl_append, parseStep_esc s b hs, List.foldl_cons]
      exact ih _ (by rw [parseDispatch_escaped]; exact hs)

/-- A byte that is neither marker, fed in the `AwaitingStart` or `Done`
state with the escape flag clear, leaves the loop state unchanged. -/
theorem parseStep_garbage (s : ParseLoopState) (b : Nat)
    (hs : s.escaped = false)
    (hstate : s.state = ParserState.AwaitingStart ∨ s.state = ParserState.Done)
    (hb1 : b ≠ 0x2b) (hb2 : b ≠ 0x2d) : parseStep s b = s := by
  obtain ⟨len, dl, crc, crcr, e, st, dg⟩ := s
  subst hs
  simp only [parseStep, if_neg hb1, if_neg hb2, if_pos rfl]
  rcases hstate with h | h <;> simp at h <;> subst h <;>
    simp [parseDispatch, hb1]

/-- A run of non-marker garbage bytes fed in the `AwaitingStart` or `Done`
state is ignored entirely. -/
theorem foldl_garbage (g : List Nat) (s : ParseLoopState)
    (hs : s.escaped = false)
    (hstate : s.state = ParserState.AwaitingStart ∨ s.state = ParserState.Done)
    (hg : ∀ b ∈ g, b ≠ 0x2b ∧ b ≠ 0x2d) :
    g.foldl parseStep s = s := by
  induction g with
  | nil => rfl
  | cons b g ih =>
      rw [List.foldl_cons,
        parseStep_garbage s b hs hstate (hg b (by simp)).1 (hg b (by simp)).2]
      exact ih fun b hb => hg b (by simp [hb])

/-- The `AwaitingData` phase: dispatching the remaining payload bytes
appends them all and moves to `AwaitingCrc0` exactly when the derived
payload length is reached. -/
theorem data_run (b : Nat) (t pre : List Nat) (len crcr : Nat)
    (e : Bool) (crc : CRC) (c i : Nat) :
    (b :: t).foldl parseDispatch
      ⟨len, pre.length + (b :: t).length, crc, crcr, e,
        ParserState.AwaitingData, ⟨c, i, pre⟩⟩ =
      ⟨len, pre.length + (b :: t).length, (b :: t).foldl CRC.Update crc, crcr,
        e, ParserState.AwaitingCrc0, ⟨c, i, pre ++ b :: t⟩⟩ := by
  induction t generalizing b pre crc with
  | nil =>
      simp only [List.foldl_cons, List.foldl_nil, parseDispatch]
      rw [if_pos (by simp)]
  | cons b' t' ih =>
      rw [List.foldl_cons]
      have hstep : parseDispatch
          ⟨len, pre.length + (b :: b' :: t').length, crc, crcr, e,
            ParserState.AwaitingData, ⟨c, i, pre⟩⟩ b =
          ⟨len, pre.length + (b :: b' :: t').length, crc.Update b, crcr, e,
            ParserState.AwaitingData, ⟨c, i, pre ++ [b]⟩⟩ := by
        simp only [parseDispatch]
        rw [if_neg (by
          simp only [List.length_append, List.length_cons, List.length_nil]
          omega)]
      rw [hstep]
      have hlen : pre.length + (b :: b' :: t').length =
          (pre ++ [b]).length + (b' :: t').length := by
        simp only [List.length_append, List.length_cons, List.length_nil]
        omega
      rw [hlen, ih b' (pre ++ [b]) (crc.Update b)]
      simp [List.append_assoc]

/-- Receiving the two unescaped CRC bytes of a frame whose checksum bytes
avoid both markers: the received value is reassembled and matches the
locally accumulated checksum, ending in `Done`. -/
theorem crc_tail_run (dg : Datagram)
    (hhi1 : frameCRC dg / 2 ^ 8 % 2 ^ 8 ≠ 0x2b)
    (hhi2 : frameCRC dg / 2 ^ 8 % 2 ^ 8 ≠ 0x2d)
    (hlo1 : frameCRC dg % 2 ^ 8 ≠ 0x2b)
    (hlo2 : frameCRC dg % 2 ^ 8 ≠ 0x2d)
    (len1 dl1 crcr1 : Nat) (dgF : Datagram) :
    [frameCRC dg / 2 ^ 8 % 2 ^ 8, frameCRC dg % 2 ^ 8].foldl parseStep
      ⟨len1, dl1, crcFold (logicalBytes dg), crcr1, false,
        ParserState.AwaitingCrc0, dgF⟩ =
      ⟨len1, dl1, crcFold (logicalBytes dg), frameCRC dg, false,
        ParserState.Done, dgF⟩ := by
  have hrecv : frameCRC dg / 2 ^ 8 % 2 ^ 8 * 2 ^ 8 ||| frameCRC dg % 2 ^ 8 =
      frameCRC dg := by
    have hG : frameCRC dg < 2 ^ 16 := frameCRC_lt dg
    have h1 : frameCRC dg / 2 ^ 8 % 2 ^ 8 = frameCRC dg / 2 ^ 8 :=
      Nat.mod_eq_of_lt (by omega)
    rw [h1, lor_mul_pow_add _ _ 8 (Nat.mod_lt _ (by norm_num))]
    omega
  rw [List.foldl_cons]
  have hstep1 : parseStep
      ⟨len1, dl1, crcFold (logicalBytes dg), crcr1, false,
        ParserState.AwaitingCrc0, dgF⟩ (frameCRC dg / 2 ^ 8 % 2 ^ 8) =
      ⟨len1, dl1, crcFold (logicalBytes dg),
        frameCRC dg / 2 ^ 8 % 2 ^ 8 * 2 ^ 8, false,
        ParserState.AwaitingCrc1, dgF⟩ := by
    simp only [parseStep]
    rw [if_pos trivial, if_neg hhi1, if_neg hhi2]
    rfl
  rw [hstep1, List.foldl_cons]
  have hstep2 : parseStep
      ⟨len1, dl1, crcFold (logicalBytes dg),
        frameCRC dg / 2 ^ 8 % 2 ^ 8 * 2 ^ 8, false,
        ParserState.AwaitingCrc1, dgF⟩ (frameCRC dg % 2 ^ 8) =
      ⟨len1, dl1, crcFold (logicalBytes dg), frameCRC dg, false,
        ParserState.Done, dgF⟩ := by
    simp only [parseStep]
    rw [if_pos trivial, if_neg hlo1, if_neg hlo2]
    simp only [parseDispatch]
    rw [if_neg (show ¬((crcFold (logicalBytes dg)).Get ≠
      frameCRC dg / 2 ^ 8 % 2 ^ 8 * 2 ^ 8 ||| frameCRC dg % 2 ^ 8) from
      not_not_intro hrecv.symm)]
    rw [hrecv]
  rw [hstep2]
  rfl

/-- Feeding a complete built frame to the parse loop from any state with
the escape flag clear parses it completely: the loop ends in `Done` holding
exactly the built datagram, provided the command is valid, the identifier
fits 32 bits, the payload fits the length byte, and neither CRC byte
collides with a marker byte. -/
theorem feed_frame (s : ParseLoopState) (hs : s.escaped = false)
    (dg : Datagram)
    (hv : dg.Cmd ≤ ReadPeriodically ∨ dg.Cmd = Extension)
    (hid : dg.Id < 2 ^ 32)
    (hlen : dg.Data.length ≤ 251)
    (hhi1 : frameCRC dg / 2 ^ 8 % 2 ^ 8 ≠ 0x2b)
    (hhi2 : frameCRC dg / 2 ^ 8 % 2 ^ 8 ≠ 0x2d)
    (hlo1 : frameCRC dg % 2 ^ 8 ≠ 0x2b)
    (hlo2 : frameCRC dg % 2 ^ 8 ≠ 0x2d) :
    ((NewDatagramBuilder.Build dg).Bytes).foldl parseStep s =
      ⟨(dg.Data.length + 4) % 2 ^ 8, dg.Data.length,
        crcFold (logicalBytes dg), frameCRC dg, false, ParserState.Done, dg⟩ := by
  obtain ⟨len0, dl0, crc0, crcr0, e0, st0, dg0⟩ := s
  simp only at hs
  subst hs
  have hbytes : (NewDatagramBuilder.Build dg).Bytes =
      0x2b :: (escAll (logicalBytes dg) ++
        [frameCRC dg / 2 ^ 8 % 2 ^ 8, frameCRC dg % 2 ^ 8]) := by
    rw [build_eq]
    rfl
  rw [hbytes, List.foldl_cons]
  have h0 : parseStep ⟨len0, dl0, crc0, crcr0, false, st0, dg0⟩ 0x2b =
      ⟨len0, dl0, crc0, crcr0, false, ParserState.AwaitingCmd, dg0⟩ := rfl
  rw [h0, List.foldl_append, parse_escAll _ _ rfl]
  obtain ⟨cmd, ident, data⟩ := dg
  simp only [logicalBytes, List.foldl_cons]
  have hcmdstep : parseDispatch
      ⟨len0, dl0, crc0, crcr0, false, ParserState.AwaitingCmd, dg0⟩ cmd =
      ⟨len0, dl0, CRC.Reset.Update cmd, crcr0, false, ParserState.AwaitingLen,
        ⟨cmd, dg0.Id, dg0.Data⟩⟩ := by
    simp only [parseDispatch]
    rw [if_pos hv]
  rw [hcmdstep]
  have hdl : ((data.length + 4) % 2 ^ 8 + 2 ^ 8 - 4) % 2 ^ 8 = data.length := by
    simp only at hlen
    omega
  have hlenstep : parseDispatch
      ⟨len0, dl0, CRC.Reset.Update cmd, crcr0, false, ParserState.AwaitingLen,
        ⟨cmd, dg0.Id, dg0.Data⟩⟩ ((data.length + 4) % 2 ^ 8) =
      ⟨(data.length + 4) % 2 ^ 8, data.length,
        (CRC.Reset.Update cmd).Update ((data.length + 4) % 2 ^ 8), crcr0,
        false, ParserState.AwaitingId0, ⟨cmd, dg0.Id, dg0.Data⟩⟩ := by
    simp only [parseDispatch]
    rw [hdl]
  rw [hlenstep]
  rw [show ∀ (c : CRC) (dgx : Datagram), parseDispatch
      ⟨(data.length + 4) % 2 ^ 8, data.length, c, crcr0, false,
        ParserState.AwaitingId0, dgx⟩ (ident / 2 ^ 24 % 2 ^ 8) =
      ⟨(data.length + 4) % 2 ^ 8, data.length,
        c.Update (ident / 2 ^ 24 % 2 ^ 8), crcr0, false,
        ParserState.AwaitingId1,
        ⟨dgx.Cmd, ident / 2 ^ 24 % 2 ^ 8 * 2 ^ 24, dgx.Data⟩⟩
    from fun c dgx => rfl]
  rw [show ∀ (c : CRC) (dgx : Datagram), parseDispatch
      ⟨(data.length + 4) % 2 ^ 8, data.length, c, crcr0, false,
        ParserState.AwaitingId1, dgx⟩ (ident / 2 ^ 16 % 2 ^ 8) =
      ⟨(data.length + 4) % 2 ^ 8, data.length,
        c.Update (ident / 2 ^ 16 % 2 ^ 8), crcr0, false,
        ParserState.AwaitingId2,
        ⟨dgx.Cmd, dgx.Id ||| ident / 2 ^ 16 % 2 ^ 8 * 2 ^ 16, dgx.Data⟩⟩
    from fun c dgx => rfl]
  rw [show ∀ (c : CRC) (dgx : Datagram), parseDispatch
      ⟨(data.length + 4) % 2 ^ 8, data.length, c, crcr0, false,
        ParserState.AwaitingId2, dgx⟩ (ident / 2 ^ 8 % 2 ^ 8) =
      ⟨(data.length + 4) % 2 ^ 8, data.length,
        c.Update (ident / 2 ^ 8 % 2 ^ 8), crcr0, false,
        ParserState.AwaitingId3,
        ⟨dgx.Cmd, dgx.Id ||| ident / 2 ^ 8 % 2 ^ 8 * 2 ^ 8, dgx.Data⟩⟩
    from fun c dgx => rfl]
  have hidval : ident / 2 ^ 24 % 2 ^ 8 * 2 ^ 24 |||
      ident / 2 ^ 16 % 2 ^ 8 * 2 ^ 16 ||| ident / 2 ^ 8 % 2 ^ 8 * 2 ^ 8 |||
      ident % 2 ^ 8 = ident := id_roundtrip ident hid
  cases data with
  | nil =>
      have hid3 : parseDispatch
          ⟨(List.length ([] : List Nat) + 4) % 2 ^ 8,
            List.length ([] : List Nat),
            ((CRC.Reset.Update cmd).Update
              ((List.length ([] : List Nat) + 4) % 2 ^ 8)).Update
                (ident / 2 ^ 24 % 2 ^ 8) |>.Update (ident / 2 ^ 16 % 2 ^ 8)
              |>.Update (ident / 2 ^ 8 % 2 ^ 8),
            crcr0, false, ParserState.AwaitingId3,
            ⟨cmd, ident / 2 ^ 24 % 2 ^ 8 * 2 ^ 24 |||
              ident / 2 ^ 16 % 2 ^ 8 * 2 ^ 16 |||
              ident / 2 ^ 8 % 2 ^ 8 * 2 ^ 8, dg0.Data⟩⟩ (ident % 2 ^ 8) =
          ⟨(List.length ([] : List Nat) + 4) % 2 ^ 8,
            List.length ([] : List Nat),
            crcFold (logicalBytes ⟨cmd, ident, []⟩), crcr0, false,
            ParserState.AwaitingCrc0, ⟨cmd, ident, []⟩⟩ := by
        simp only [parseDispatch]
        rw [if_neg (by simp)]
        simp only [crcFold, logicalBytes, List.foldl_cons, List.foldl_nil]
        rw [hidval]
      rw [hid3, List.foldl_nil]
      exact crc_tail_run ⟨cmd, ident, []⟩ hhi1 hhi2 hlo1 hlo2 _ _ _ _
  | cons d ds =>
      have hid3 : parseDispatch
          ⟨((d :: ds).length + 4) % 2 ^ 8, (d :: ds).length,
            ((CRC.Reset.Update cmd).Update
              (((d :: ds).length + 4) % 2 ^ 8)).Update
                (ident / 2 ^ 24 % 2 ^ 8) |>.Update (ident / 2 ^ 16 % 2 ^ 8)
              |>.Update (ident / 2 ^ 8 % 2 ^ 8),
            crcr0, false, ParserState.AwaitingId3,
            ⟨cmd, ident / 2 ^ 24 % 2 ^ 8 * 2 ^ 24 |||
              ident / 2 ^ 16 % 2 ^ 8 * 2 ^ 16 |||
              ident / 2 ^ 8 % 2 ^ 8 * 2 ^ 8, dg0.Data⟩⟩ (ident % 2 ^ 8) =
          ⟨((d :: ds).length + 4) % 2 ^ 8, (d :: ds).length,
            ((((CRC.Reset.Update cmd).Update
              (((d :: ds).length + 4) % 2 ^ 8)).Update
                (ident / 2 ^ 24 % 2 ^ 8)).Update
                  (ident / 2 ^ 16 % 2 ^ 8)).Update (ident / 2 ^ 8 % 2 ^ 8)
              |>.Update (ident % 2 ^ 8),
            crcr0, false, ParserState.AwaitingData, ⟨cmd, ident, []⟩⟩ := by
        simp only [parseDispatch]
        rw [if_pos (by simp)]
        rw [hidval]
      rw [hid3]
      have hpre : (d :: ds).length =
          List.length ([] : List Nat) + (d :: ds).length := by simp
      rw [show ParseLoopState.mk (((d :: ds).length + 4) % 2 ^ 8)
            ((d :: ds).length)
            (((((CRC.Reset.Update cmd).Update
              (((d :: ds).length + 4) % 2 ^ 8)).Update
                (ident / 2 ^ 24 % 2 ^ 8)).Update
                  (ident / 2 ^ 16 % 2 ^ 8)).Update (ident / 2 ^ 8 % 2 ^ 8)
              |>.Update (ident % 2 ^ 8))
            crcr0 false ParserState.AwaitingData ⟨cmd, ident, []⟩ =
          ParseLoopState.mk (((d :: ds).length + 4) % 2 ^ 8)
            (List.length ([] : List Nat) + (d :: ds).length)
            (((((CRC.Reset.Update cmd).Update
              (((d :: ds).length + 4) % 2 ^ 8)).Update
                (ident / 2 ^ 24 % 2 ^ 8)).Update
                  (ident / 2 ^ 16 % 2 ^ 8)).Update (ident / 2 ^ 8 % 2 ^ 8)
              |>.Update (ident % 2 ^ 8))
            crcr0 false ParserState.AwaitingData ⟨cmd, ident, []⟩ from by
        rw [← hpre]]
      rw [data_run]
      have hfold : (d :: ds).foldl CRC.Update
          (((((CRC.Reset.Update cmd).Update
            (((d :: ds).length + 4) % 2 ^ 8)).Update
              (ident / 2 ^ 24 % 2 ^ 8)).Update
                (ident / 2 ^ 16 % 2 ^ 8)).Update (ident / 2 ^ 8 % 2 ^ 8)
            |>.Update (ident % 2 ^ 8)) =
          crcFold (logicalBytes ⟨cmd, ident, d :: ds⟩) := by
        simp only [crcFold, logicalBytes, List.foldl_cons]
      rw [← hpre, hfold]
      have htail := crc_tail_run ⟨cmd, ident, d :: ds⟩ hhi1 hhi2 hlo1 hlo2
        (((d :: ds).length + 4) % 2 ^ 8) ((d :: ds).length) crcr0
        ⟨cmd, ident, [] ++ d :: ds⟩
      simp only [List.nil_append] at htail ⊢
      exact htail

/-! ## Errors (`recoverable.go`), cache (`cache.go`), connection
(`connection.go`), typed accessors (`datagram.go`) -/

/-- Go error values returned by the library: the `RecoverableError` struct
with its `Err` string, or a plain `fmt.Errorf` error. -/
inductive GoError
  | Recoverable (Err : String)
  | Errorf (msg : String)
deriving DecidableEq, Repr

/-- `IsRecoverableError`: the type assertion `err.(RecoverableError)`. -/
def IsRecoverableError : GoError → Bool
  | .Recoverable _ => true
  | .Errorf _ => false

/-- A cache entry: datagram plus receipt timestamp (`time.Time` as `Int`). -/
structure cacheEntry where
  dg : Datagram
  ts : Int
deriving DecidableEq, Repr

/-- The datagram cache: entry map plus configured timeout
(`time.Duration` as `Int`).  The Go map is modelled as an association
list whose `lookup` finds the most recent binding. -/
structure Cache where
  entries : List (Nat × cacheEntry)
  timeout : Int
deriving DecidableEq, Repr

def NewCache (timeout : Int) : Cache := ⟨[], timeout⟩

/-- `Cache.Get`: returns the entry for the identifier only if present and
still valid under the timeout (`time.Since(entry.ts)` is `now - entry.ts`
with the current time passed explicitly); otherwise an empty datagram and
`false`. -/
def Cache.Get (c : Cache) (now : Int) (i : Nat) : Datagram × Bool :=
  match c.entries.lookup i with
  | none => (⟨0, 0, []⟩, false)
  | some entry =>
      if c.timeout < now - entry.ts then (⟨0, 0, []⟩, false)
      else (entry.dg, true)

/-- `Cache.Put`: store the datagram under its own identifier with the
current time, overwriting any prior entry (map update modelled as cons:
`lookup` sees the newest binding). -/
def Cache.Put (c : Cache) (now : Int) (dg : Datagram) : Cache :=
  { c with entries := (dg.Id, ⟨dg, now⟩) :: c.entries }

/-- Socket-side events observable during one `send` call. -/
inductive NetEvent
  | ConnectAttempt
  | WriteAttempt
deriving DecidableEq, Repr

/-- Outcomes the network delivers to one `send` call: up to two
`connect()` results (`none` = success) and up to two `conn.Write` results
(bytes written, error), consumed in call order. -/
structure NetWorld where
  dial1 : Option GoError
  write1 : Nat × Option GoError
  dial2 : Option GoError
  write2 : Nat × Option GoError
deriving DecidableEq, Repr

/-- Result of `Connection.send`: the returned `(n, err)` pair, the socket
state afterwards (`none` when `c.conn` is nil), and the observed events. -/
structure SendOutcome where
  n : Nat
  err : Option GoError
  conn : Option Unit
  events : List NetEvent
deriving DecidableEq, Repr

/-- The write-with-single-retry part of `Connection.send`: write; on error
close, redial (`connect` failure returns its error and leaves the socket
nil), and write once more. -/
def sendBody (w : NetWorld) (ev : List NetEvent) : SendOutcome :=
  match w.write1 with
  | (n, none) => ⟨n, none, some (), ev ++ [NetEvent.WriteAttempt]⟩
  | (_, some _) =>
      match w.dial2 with
      | some e =>
          ⟨0, some e, none,
            ev ++ [NetEvent.WriteAttempt, NetEvent.ConnectAttempt]⟩
      | none =>
          ⟨w.write2.1, w.write2.2, some (),
            ev ++ [NetEvent.WriteAttempt, NetEvent.ConnectAttempt,
              NetEvent.WriteAttempt]⟩

/-- `Connection.send` (`connection.go`): "ensure active connection" — when
`c.conn == nil` it calls `connect()` (it does not fail fast); a `connect`
failure returns that error with no write; otherwise the frame is written,
with a single close-redial-rewrite retry on a write error. -/
def Connection.send (conn : Option Unit) (w : NetWorld) : SendOutcome :=
  match conn with
  | none =>
      match w.dial1 with
      | some e => ⟨0, some e, none, [NetEvent.ConnectAttempt]⟩
      | none => sendBody w [NetEvent.ConnectAttempt]
  | some _ => sendBody w []

/-- `Connection.Send` takes the connection mutex and delegates to `send`;
the mutex is immaterial in this sequential model. -/
def Connection.Send (conn : Option Unit) (w : NetWorld) : SendOutcome :=
  Connection.send conn w

deriving instance DecidableEq for Except

/-- The socket-side outcomes one `Query` call can observe: the `send`
outcomes plus the result of the `receive` step (dial-if-needed, read,
parse — abstracted to the datagram or error it produces). -/
structure QueryWorld where
  net : NetWorld
  recv : Except GoError Datagram
deriving DecidableEq, Repr

/-- Result of `Connection.Query`: the returned datagram or error, the
cache afterwards, and the frames passed to `send`. -/
structure QueryOutcome where
  result : Except GoError Datagram
  cache : Cache
  sent : List (List Nat)
deriving DecidableEq, Repr

/-- `Connection.Query` (`connection.go`): return a valid cache entry
immediately; otherwise build a Read request for the identifier, `send` it
(returning a send error as-is), `receive` (returning a receive error
as-is), reject a datagram whose command is not `Response` or whose
identifier differs with a `RecoverableError` (the `fmt.Sprintf` message is
simplified), and otherwise cache and return the datagram. -/
def Connection.Query (cache : Cache) (conn : Option Unit) (w : QueryWorld)
    (now : Int) (id : Nat) : QueryOutcome :=
  let got := cache.Get now id
  if got.2 then ⟨Except.ok got.1, cache, []⟩
  else
    let builder := NewDatagramBuilder.Build ⟨Read, id, []⟩
    match (Connection.send conn w.net).err with
    | some e => ⟨Except.error e, cache, [builder.Bytes]⟩
    | none =>
        match w.recv with
        | Except.error e => ⟨Except.error e, cache, [builder.Bytes]⟩
        | Except.ok dg =>
            if dg.Cmd ≠ Response ∨ dg.Id ≠ id then
              ⟨Except.error (GoError.Recoverable
                  ("invalid response to read of " ++ toString id)),
                cache, [builder.Bytes]⟩
            else ⟨Except.ok dg, cache.Put now dg, [builder.Bytes]⟩

/-- `binary.BigEndian.Uint32` on a 4-byte slice (callers guard the length;
the catch-all is arbitrary). -/
def bigEndianUint32 : List Nat → Nat
  | [b0, b1, b2, b3] => b0 * 2 ^ 24 ||| b1 * 2 ^ 16 ||| b2 * 2 ^ 8 ||| b3
  | _ => 0

/-- `binary.BigEndian.Uint16` on a 2-byte slice (callers guard the length;
the catch-all is arbitrary). -/
def bigEndianUint16 : List Nat → Nat
  | [b0, b1] => b0 * 2 ^ 8 ||| b1
  | _ => 0

/-- `Datagram.Float32` (`datagram.go`): errors unless the payload is
exactly 4 bytes, else the big-endian 32-bit value.  Go finishes with
`math.Float32frombits`, a bijection on the 2^32 bit patterns; Lean has no
32-bit float type, so the accessor returns the bit pattern. -/
def Datagram.Float32 (d : Datagram) : Except GoError Nat :=
  if d.Data.length ≠ 4 then
    Except.error (GoError.Errorf
      ("invalid data length " ++ toString d.Data.length))
  else Except.ok (bigEndianUint32 d.Data)

/-- `Datagram.Uint16` (`datagram.go`): errors unless the payload is
exactly 2 bytes, else the big-endian 16-bit value. -/
def Datagram.Uint16 (d : Datagram) : Except GoError Nat :=
  if d.Data.length ≠ 2 then
    Except.error (GoError.Errorf
      ("invalid data length " ++ toString d.Data.length))
  else Except.ok (bigEndianUint16 d.Data)

/-- `Datagram.Uint8` (`datagram.go`): errors unless the payload is exactly
1 byte, else that byte (`d.Data[0]`). -/
def Datagram.Uint8 (d : Datagram) : Except GoError Nat :=
  if d.Data.length ≠ 1 then
    Except.error (GoError.Errorf
      ("invalid data length " ++ toString d.Data.length))
  else Except.ok (d.Data.headD 0)

/-- `Datagram.Int32` (the `datagram.go` revision in `src/unnamed/part_003`,
the only source file defining it): errors with a `RecoverableError` unless
the payload is exactly 4 bytes, else returns
`int32(binary.BigEndian.Uint32(d.Data))` — the big-endian 32-bit value
reinterpreted in two's complement. -/
def Datagram.Int32 (d : Datagram) : Except GoError Int :=
  if d.Data.length ≠ 4 then
    Except.error (GoError.Recoverable
      ("invalid data length " ++ toString d.Data.length))
  else Except.ok (if bigEndianUint32 d.Data < 2 ^ 31 then
    (bigEndianUint32 d.Data : Int)
  else (bigEndianUint32 d.Data : Int) - 2 ^ 32)

/-- `Connection.QueryFloat32`: `Query`, then the `Float32` accessor, each
error propagated unchanged. -/
def Connection.QueryFloat32 (cache : Cache) (conn : Option Unit)
    (w : QueryWorld) (now : Int) (id : Nat) : Except GoError Nat :=
  match (Connection.Query cache conn w now id).result with
  | Except.error e => Except.error e
  | Except.ok dg => dg.Float32

/-- `Connection.QueryUint16`: `Query`, then the `Uint16` accessor. -/
def Connection.QueryUint16 (cache : Cache) (conn : Option Unit)
    (w : QueryWorld) (now : Int) (id : Nat) : Except GoError Nat :=
  match (Connection.Query cache conn w now id).result with
  | Except.error e => Except.error e
  | Except.ok dg => dg.Uint16

/-- `Connection.QueryUint8`: `Query`, then the `Uint8` accessor. -/
def Connection.QueryUint8 (cache : Cache) (conn : Option Unit)
    (w : QueryWorld) (now : Int) (id : Nat) : Except GoError Nat :=
  match (Connection.Query cache conn w now id).result with
  | Except.error e => Except.error e
  | Except.ok dg => dg.Uint8

/-! ## Claim theorems -/

/-- Every defined command passes the parser's command validation. -/
theorem mem_definedCommands_valid (c : Command) (h : c ∈ definedCommands) :
    c ≤ ReadPeriodically ∨ c = Extension := by
  simp only [definedCommands, List.mem_cons, List.not_mem_nil, or_false] at h
  rcases h with rfl | rfl | rfl | rfl | rfl | rfl | rfl | rfl | rfl <;> decide

/-- C2: building `{Read, 0x400F015B, []}` produces exactly the bytes
`2B 01 04 40 0F 01 5B 58 B4`, and building `{Read, 0xDB2D69AE, []}`
produces exactly `2B 01 04 DB 2D 2D 69 AE 55 AB` (with the escape byte
0x2D inserted before the identifier byte 0x2D); parsing each sequence
reproduces the original datagram. -/
theorem builder_test_vectors :
    (NewDatagramBuilder.Build ⟨Read, 0x400F015B, []⟩).Bytes =
      [0x2B, 0x01, 0x04, 0x40, 0x0F, 0x01, 0x5B, 0x58, 0xB4] ∧
    (NewDatagramBuilder.Build ⟨Read, 0xDB2D69AE, []⟩).Bytes =
      [0x2B, 0x01, 0x04, 0xDB, 0x2D, 0x2D, 0x69, 0xAE, 0x55, 0xAB] ∧
    DatagramParser.Parse
      ⟨[0x2B, 0x01, 0x04, 0x40, 0x0F, 0x01, 0x5B, 0x58, 0xB4], 9, 0⟩ =
      some ⟨Read, 0x400F015B, []⟩ ∧
    DatagramParser.Parse
      ⟨[0x2B, 0x01, 0x04, 0xDB, 0x2D, 0x2D, 0x69, 0xAE, 0x55, 0xAB], 10, 0⟩ =
      some ⟨Read, 0xDB2D69AE, []⟩ := by
  decide

/-- C1 counterexample: the datagram `{Read, 62, []}` lies in the claim's
domain (defined command, 32-bit identifier, payload length ≤ 251), but its
frame checksum is 0x152B and `WriteCRC` emits the CRC bytes unescaped, so
the parser takes the trailing 0x2B for a start marker and `Parse` fails on
the built frame instead of returning the datagram. -/
theorem roundtrip_fails_for_id62 :
    Read ∈ definedCommands ∧ (62 : Nat) < 2 ^ 32 ∧
    ([] : List Nat).length ≤ 251 ∧
    (NewDatagramBuilder.Build ⟨Read, 62, []⟩).Bytes =
      [0x2B, 0x01, 0x04, 0x00, 0x00, 0x00, 0x3E, 0x15, 0x2B] ∧
    DatagramParser.Parse
      ⟨(NewDatagramBuilder.Build ⟨Read, 62, []⟩).Bytes,
        (NewDatagramBuilder.Build ⟨Read, 62, []⟩).Bytes.length, 0⟩ = none := by
  decide

/-- C1 (amended): for every datagram whose command is in the defined set,
whose identifier is any 32-bit value and whose payload length is at most
251, **and whose two frame-CRC bytes both differ from the marker bytes
0x2B and 0x2D** (the builder emits them unescaped), building with
`DatagramBuilder.Build` and parsing the built bytes with
`DatagramParser.Parse` succeeds and yields identical command, identifier
and payload. -/
theorem build_parse_roundtrip (cmd : Command) (ident : Nat) (data : List Nat)
    (hcmd : cmd ∈ definedCommands) (hid : ident < 2 ^ 32)
    (hlen : data.length ≤ 251)
    (hhi1 : frameCRC ⟨cmd, ident, data⟩ / 2 ^ 8 % 2 ^ 8 ≠ 0x2b)
    (hhi2 : frameCRC ⟨cmd, ident, data⟩ / 2 ^ 8 % 2 ^ 8 ≠ 0x2d)
    (hlo1 : frameCRC ⟨cmd, ident, data⟩ % 2 ^ 8 ≠ 0x2b)
    (hlo2 : frameCRC ⟨cmd, ident, data⟩ % 2 ^ 8 ≠ 0x2d) :
    DatagramParser.Parse
      ⟨(NewDatagramBuilder.Build ⟨cmd, ident, data⟩).Bytes,
        (NewDatagramBuilder.Build ⟨cmd, ident, data⟩).Bytes.length, 0⟩ =
      some ⟨cmd, ident, data⟩ := by
  have hframe := feed_frame initLoopState rfl ⟨cmd, ident, data⟩
    (mem_definedCommands_valid cmd hcmd) hid hlen hhi1 hhi2 hlo1 hlo2
  simp only [DatagramParser.Parse, Nat.sub_zero, List.drop_zero,
    List.take_length]
  rw [hframe]
  rfl

/-- Witness for the amended C1: a `Response` datagram with a 4-byte payload
round-trips through build and parse. -/
theorem build_parse_roundtrip_witness :
    DatagramParser.Parse
      ⟨(NewDatagramBuilder.Build ⟨Response, 0xB5317B78, [0, 1, 2, 3]⟩).Bytes,
        (NewDatagramBuilder.Build
          ⟨Response, 0xB5317B78, [0, 1, 2, 3]⟩).Bytes.length, 0⟩ =
      some ⟨Response, 0xB5317B78, [0, 1, 2, 3]⟩ :=
  build_parse_roundtrip Response 0xB5317B78 [0, 1, 2, 3] (by decide)
    (by decide) (by decide) (by decide) (by decide) (by decide) (by decide)

/-- C10: `Build` starts by resetting the internal buffer and CRC, so the
resulting builder state — in particular the `Bytes()` output — depends only
on the datagram, never on the prior builder state. -/
theorem build_independent_of_prior_state (s1 s2 : DatagramBuilder)
    (dg : Datagram) :
    s1.Build dg = s2.Build dg ∧ (s1.Build dg).Bytes = (s2.Build dg).Bytes :=
  ⟨rfl, rfl⟩

/-- C3 counterexample: fed garbage, the first test frame, garbage, and the
second test frame in a single buffer, the decoder does not emit the two
datagrams: `Parse` produces a single result, the SECOND frame's datagram
(each unescaped start marker restarts the parse and overwrites the earlier
result), and the first frame's distinct datagram is never emitted. -/
theorem parse_two_frames_counterexample :
    DatagramParser.Parse
      ⟨[0x00, 0x2B, 0x01, 0x04, 0x40, 0x0F, 0x01, 0x5B, 0x58, 0xB4, 0x01,
        0x2B, 0x01, 0x04, 0xDB, 0x2D, 0x2D, 0x69, 0xAE, 0x55, 0xAB], 21, 0⟩ =
      some ⟨Read, 0xDB2D69AE, []⟩ ∧
    (⟨Read, 0x400F015B, []⟩ : Datagram) ≠ ⟨Read, 0xDB2D69AE, []⟩ := by
  decide

/-- C3 (amended): fed `[garbage][frame1][garbage][frame2]` in one buffer —
marker-free garbage bytes and two valid frames whose CRC bytes avoid the
marker values — `DatagramParser.Parse` ignores the garbage but returns
exactly the SECOND frame's datagram: one `Parse` call emits at most one
datagram, and each unescaped start marker restarts the parse, so the later
frame overwrites the earlier one. -/
theorem parse_garbage_frame_garbage_frame (g1 g2 : List Nat)
    (dg1 dg2 : Datagram)
    (hg1 : ∀ b ∈ g1, b ≠ 0x2b ∧ b ≠ 0x2d)
    (hg2 : ∀ b ∈ g2, b ≠ 0x2b ∧ b ≠ 0x2d)
    (hcmd1 : dg1.Cmd ∈ definedCommands) (hid1 : dg1.Id < 2 ^ 32)
    (hlen1 : dg1.Data.length ≤ 251)
    (h1hi1 : frameCRC dg1 / 2 ^ 8 % 2 ^ 8 ≠ 0x2b)
    (h1hi2 : frameCRC dg1 / 2 ^ 8 % 2 ^ 8 ≠ 0x2d)
    (h1lo1 : frameCRC dg1 % 2 ^ 8 ≠ 0x2b)
    (h1lo2 : frameCRC dg1 % 2 ^ 8 ≠ 0x2d)
    (hcmd2 : dg2.Cmd ∈ definedCommands) (hid2 : dg2.Id < 2 ^ 32)
    (hlen2 : dg2.Data.length ≤ 251)
    (h2hi1 : frameCRC dg2 / 2 ^ 8 % 2 ^ 8 ≠ 0x2b)
    (h2hi2 : frameCRC dg2 / 2 ^ 8 % 2 ^ 8 ≠ 0x2d)
    (h2lo1 : frameCRC dg2 % 2 ^ 8 ≠ 0x2b)
    (h2lo2 : frameCRC dg2 % 2 ^ 8 ≠ 0x2d) :
    DatagramParser.Parse
      ⟨g1 ++ (NewDatagramBuilder.Build dg1).Bytes ++ g2 ++
          (NewDatagramBuilder.Build dg2).Bytes,
        (g1 ++ (NewDatagramBuilder.Build dg1).Bytes ++ g2 ++
          (NewDatagramBuilder.Build dg2).Bytes).length, 0⟩ = some dg2 := by
  simp only [DatagramParser.Parse, Nat.sub_zero, List.drop_zero,
    List.take_length]
  rw [List.foldl_append, List.foldl_append, List.foldl_append]
  rw [foldl_garbage g1 initLoopState rfl (Or.inl rfl) hg1]
  rw [feed_frame initLoopState rfl dg1
    (mem_definedCommands_valid _ hcmd1) hid1 hlen1 h1hi1 h1hi2 h1lo1 h1lo2]
  rw [foldl_garbage g2 _ rfl (Or.inr rfl) hg2]
  rw [feed_frame _ rfl dg2
    (mem_definedCommands_valid _ hcmd2) hid2 hlen2 h2hi1 h2hi2 h2lo1 h2lo2]
  rfl

/-- Witness for the amended C3: garbage around a `Write` frame and a
`Response` frame; `Parse` returns the second frame's datagram. -/
theorem parse_garbage_frame_garbage_frame_witness :
    DatagramParser.Parse
      ⟨[0x07] ++ (NewDatagramBuilder.Build
            ⟨Write, 0x8B9FF008, [0x3F, 0, 0, 0]⟩).Bytes ++ [0x10, 0xFF] ++
          (NewDatagramBuilder.Build ⟨Response, 0x5F33284E, [0x0D]⟩).Bytes,
        ([0x07] ++ (NewDatagramBuilder.Build
            ⟨Write, 0x8B9FF008, [0x3F, 0, 0, 0]⟩).Bytes ++ [0x10, 0xFF] ++
          (NewDatagramBuilder.Build ⟨Response, 0x5F33284E, [0x0D]⟩).Bytes).length,
        0⟩ = some ⟨Response, 0x5F33284E, [0x0D]⟩ :=
  parse_garbage_frame_garbage_frame [0x07] [0x10, 0xFF]
    ⟨Write, 0x8B9FF008, [0x3F, 0, 0, 0]⟩ ⟨Response, 0x5F33284E, [0x0D]⟩
    (by decide) (by decide) (by decide) (by decide) (by decide) (by decide)
    (by decide) (by decide) (by decide) (by decide) (by decide) (by decide)
    (by decide) (by decide) (by decide) (by decide)

/-- C9 counterexample: a datagram stored with `Put` at time 0 in a cache
with timeout 5 is withheld by `Get` at time 10: the cache itself treats
the entry as expired and returns an empty datagram with `ok = false`
instead of the stored datagram — staleness is judged inside the cache, not
by the caller. -/
theorem cache_get_expired_counterexample :
    ((NewCache 5).Put 0 ⟨Response, 7, [1]⟩).Get 10 7 = (⟨0, 0, []⟩, false) ∧
    (⟨Response, 7, [1]⟩ : Datagram) ≠ ⟨0, 0, []⟩ := by
  decide

/-- C9 (amended): after `Cache.Put`, `Cache.Get` for that identifier
returns the stored datagram exactly when the entry's age `now - ts` does
not exceed the configured timeout; an older entry is withheld by the cache
itself (empty datagram, `ok = false`). -/
theorem cache_put_get (c : Cache) (ts now : Int) (dg : Datagram) :
    (c.Put ts dg).Get now dg.Id =
      if c.timeout < now - ts then (⟨0, 0, []⟩, false) else (dg, true) := by
  simp [Cache.Put, Cache.Get, List.lookup]

/-- C4: a `Query` whose cache entry for the identifier is younger than the
configured timeout returns that entry and passes nothing to `send`; a
`Query` whose entry is older than the timeout, or absent, passes exactly
one frame to `send`: the encoded Read request for the identifier. -/
theorem query_cache_freshness (cache : Cache) (conn : Option Unit)
    (w : QueryWorld) (now : Int) (id : Nat) :
    (∀ e, cache.entries.lookup id = some e → now - e.ts < cache.timeout →
      Connection.Query cache conn w now id = ⟨Except.ok e.dg, cache, []⟩) ∧
    ((cache.entries.lookup id = none ∨
        ∃ e, cache.entries.lookup id = some e ∧ cache.timeout < now - e.ts) →
      (Connection.Query cache conn w now id).sent =
        [(NewDatagramBuilder.Build ⟨Read, id, []⟩).Bytes]) := by
  constructor
  · intro e he hy
    have hget : cache.Get now id = (e.dg, true) := by
      simp only [Cache.Get, he]
      rw [if_neg (by omega)]
    simp only [Connection.Query, hget]
    rfl
  · intro h
    have hget : (cache.Get now id).2 = false := by
      rcases h with h | ⟨e, he, hy⟩
      · simp [Cache.Get, h]
      · simp only [Cache.Get, he]
        rw [if_pos hy]
    simp only [Connection.Query, hget]
    simp only [Bool.false_eq_true, if_false]
    cases (Connection.send conn w.net).err with
    | some e => rfl
    | none =>
        cases w.recv with
        | error e => rfl
        | ok dg => by_cases hmm : dg.Cmd ≠ Response ∨ dg.Id ≠ id <;>
            simp [hmm]

/-- Witness for C4: a fresh cache entry is returned with no send, and on an
empty cache exactly the encoded Read request is sent. -/
theorem query_cache_freshness_witness :
    Connection.Query ⟨[(7, ⟨⟨Response, 7, [1]⟩, 0⟩)], 5⟩ none
        ⟨⟨none, (0, none), none, (0, none)⟩, Except.error (GoError.Errorf "e")⟩
        3 7 =
      ⟨Except.ok ⟨Response, 7, [1]⟩, ⟨[(7, ⟨⟨Response, 7, [1]⟩, 0⟩)], 5⟩, []⟩ ∧
    (Connection.Query (NewCache 5) none
        ⟨⟨none, (0, none), none, (0, none)⟩, Except.error (GoError.Errorf "e")⟩
        3 7).sent =
      [(NewDatagramBuilder.Build ⟨Read, 7, []⟩).Bytes] :=
  ⟨(query_cache_freshness _ _ _ _ _).1 ⟨⟨Response, 7, [1]⟩, 0⟩ rfl (by decide),
   (query_cache_freshness _ _ _ _ _).2 (Or.inl rfl)⟩

/-- C5 counterexample: `send` invoked with no live socket and a cooperative
network does not fail fast with a disconnected-state error: it dials (one
connect attempt), writes the frame, and returns success — the code has no
disconnected-error path at all (`send` calls `connect()` when `c.conn` is
nil). -/
theorem send_disconnected_counterexample :
    Connection.send none ⟨none, (9, none), none, (0, none)⟩ =
      ⟨9, none, some (), [NetEvent.ConnectAttempt, NetEvent.WriteAttempt]⟩ := by
  decide

/-- The events of the write-with-retry body extend the prefix. -/
theorem sendBody_events (w : NetWorld) (ev : List NetEvent) :
    ∃ rest, (sendBody w ev).events = ev ++ rest := by
  unfold sendBody
  rcases hw : w.write1 with ⟨n, err⟩
  cases err with
  | none => exact ⟨[NetEvent.WriteAttempt], rfl⟩
  | some e =>
      cases hd : w.dial2 with
      | some e2 => exact ⟨[NetEvent.WriteAttempt, NetEvent.ConnectAttempt], rfl⟩
      | none => exact ⟨[NetEvent.WriteAttempt, NetEvent.ConnectAttempt,
          NetEvent.WriteAttempt], rfl⟩

/-- C5 (amended): `Connection.send` with no live socket does not fail fast
with a disconnected-state error: its first action is always a connect
attempt; if that dial fails, the dial error is returned with no write,
and otherwise the frame is written. -/
theorem send_disconnected_dials (w : NetWorld) :
    (Connection.send none w).events.head? = some NetEvent.ConnectAttempt ∧
    (∀ e, w.dial1 = some e →
      Connection.send none w = ⟨0, some e, none, [NetEvent.ConnectAttempt]⟩) := by
  constructor
  · cases hd : w.dial1 with
    | some e => simp [Connection.send, hd]
    | none =>
        obtain ⟨rest, hr⟩ := sendBody_events w [NetEvent.ConnectAttempt]
        simp [Connection.send, hd, hr]
  · intro e he
    simp [Connection.send, he]

/-- Witness for the amended C5: a failing dial surfaces the dial error
after exactly one connect attempt and no write. -/
theorem send_disconnected_dials_witness :
    Connection.send none
        ⟨some (GoError.Errorf "dial refused"), (0, none), none, (0, none)⟩ =
      ⟨0, some (GoError.Errorf "dial refused"), none,
        [NetEvent.ConnectAttempt]⟩ :=
  (send_disconnected_dials _).2 _ rfl

/-- C7: on a cache miss, when `send` succeeds and the received datagram's
command is not `Response` or its identifier differs from the queried one,
`Query` returns an error of the recoverable kind (`IsRecoverableError`
holds for it) and stores nothing: the cache is returned unchanged. -/
theorem query_mismatch_recoverable (cache : Cache) (conn : Option Unit)
    (w : QueryWorld) (now : Int) (id : Nat) (dg : Datagram)
    (hmiss : (cache.Get now id).2 = false)
    (hsend : (Connection.send conn w.net).err = none)
    (hrecv : w.recv = Except.ok dg)
    (hmm : dg.Cmd ≠ Response ∨ dg.Id ≠ id) :
    ∃ e, (Connection.Query cache conn w now id).result = Except.error e ∧
      IsRecoverableError e = true ∧
      (Connection.Query cache conn w now id).cache = cache := by
  simp only [Connection.Query, hmiss, hsend, hrecv]
  simp only [Bool.false_eq_true, if_false]
  rw [if_pos hmm]
  exact ⟨_, rfl, rfl, rfl⟩

/-- Witness for C7: a `Read` datagram received in answer to a query for
identifier 3 yields a recoverable error and leaves the cache empty. -/
theorem query_mismatch_recoverable_witness :
    ∃ e, (Connection.Query (NewCache 5) (some ())
        ⟨⟨none, (9, none), none, (0, none)⟩, Except.ok ⟨Read, 3, []⟩⟩
        0 3).result = Except.error e ∧
      IsRecoverableError e = true ∧
      (Connection.Query (NewCache 5) (some ())
        ⟨⟨none, (9, none), none, (0, none)⟩, Except.ok ⟨Read, 3, []⟩⟩
        0 3).cache = NewCache 5 :=
  query_mismatch_recoverable (NewCache 5) (some ())
    ⟨⟨none, (9, none), none, (0, none)⟩, Except.ok ⟨Read, 3, []⟩⟩ 0 3
    ⟨Read, 3, []⟩ rfl rfl rfl (by decide)

/-- C8: each typed accessor succeeds exactly on its protocol-defined
payload length — `Float32` and `Int32` on 4 bytes, `Uint16` on 2, `Uint8`
on 1 — returning the full big-endian value on success and an error on any
other length (never a truncated or padded value); and whenever `Query`
succeeds, `QueryFloat32`, `QueryUint16` and `QueryUint8` return the
corresponding accessor's result, hence its length-validation error
unchanged. -/
theorem typed_accessors_length (d : Datagram) (cache : Cache)
    (conn : Option Unit) (w : QueryWorld) (now : Int) (id : Nat) :
    (d.Float32.isOk = true ↔ d.Data.length = 4) ∧
    (d.Int32.isOk = true ↔ d.Data.length = 4) ∧
    (d.Uint16.isOk = true ↔ d.Data.length = 2) ∧
    (d.Uint8.isOk = true ↔ d.Data.length = 1) ∧
    (d.Data.length = 4 → d.Float32 = Except.ok (bigEndianUint32 d.Data)) ∧
    (d.Data.length = 4 → d.Int32 = Except.ok
      (if bigEndianUint32 d.Data < 2 ^ 31 then (bigEndianUint32 d.Data : Int)
       else (bigEndianUint32 d.Data : Int) - 2 ^ 32)) ∧
    (d.Data.length = 2 → d.Uint16 = Except.ok (bigEndianUint16 d.Data)) ∧
    (d.Data.length = 1 → d.Uint8 = Except.ok (d.Data.headD 0)) ∧
    (∀ dgq, (Connection.Query cache conn w now id).result = Except.ok dgq →
      Connection.QueryFloat32 cache conn w now id = dgq.Float32) ∧
    (∀ dgq, (Connection.Query cache conn w now id).result = Except.ok dgq →
      Connection.QueryUint16 cache conn w now id = dgq.Uint16) ∧
    (∀ dgq, (Connection.Query cache conn w now id).result = Except.ok dgq →
      Connection.QueryUint8 cache conn w now id = dgq.Uint8) := by
  refine ⟨?_, ?_, ?_, ?_, ?_, ?_, ?_, ?_, ?_, ?_, ?_⟩
  · by_cases h : d.Data.length = 4 <;> simp [Datagram.Float32, h, Except.isOk, Except.toBool]
  · by_cases h : d.Data.length = 4 <;> simp [Datagram.Int32, h, Except.isOk, Except.toBool]
  · by_cases h : d.Data.length = 2 <;> simp [Datagram.Uint16, h, Except.isOk, Except.toBool]
  · by_cases h : d.Data.length = 1 <;> simp [Datagram.Uint8, h, Except.isOk, Except.toBool]
  · intro h; simp [Datagram.Float32, h]
  · intro h; simp [Datagram.Int32, h]
  · intro h; simp [Datagram.Uint16, h]
  · intro h; simp [Datagram.Uint8, h]
  · intro dgq h; simp only [Connection.QueryFloat32, h]
  · intro dgq h; simp only [Connection.QueryUint16, h]
  · intro dgq h; simp only [Connection.QueryUint8, h]

/-- Witness for C8: a successful query for identifier 9 answered by a
1-byte `Response` propagates through `QueryUint8` to the accessor, and the
accessor's length validation is exercised at concrete payloads. -/
theorem typed_accessors_length_witness :
    Connection.QueryUint8 (NewCache 1) none
        ⟨⟨none, (0, none), none, (0, none)⟩, Except.ok ⟨Response, 9, [4]⟩⟩
        0 9 = (⟨Response, 9, [4]⟩ : Datagram).Uint8 ∧
    ((⟨Response, 9, [4]⟩ : Datagram).Float32.isOk = true ↔
      ([4] : List Nat).length = 4) :=
  ⟨(typed_accessors_length ⟨Response, 9, [4]⟩ (NewCache 1) none
      ⟨⟨none, (0, none), none, (0, none)⟩, Except.ok ⟨Response, 9, [4]⟩⟩
      0 9).2.2.2.2.2.2.2.2.2.2 ⟨Response, 9, [4]⟩ (by decide),
   (typed_accessors_length ⟨Response, 9, [4]⟩ (NewCache 1) none
      ⟨⟨none, (0, none), none, (0, none)⟩, Except.ok ⟨Response, 9, [4]⟩⟩
      0 9).1⟩

end RCT
